import Mathlib

/-!
Verification development for the sim-operator reconciliation and load-scaling
engine.  The Go source is shallowly embedded: pure computations become Lean
functions over `Nat`/`Int` (Go `float64` values that arise from decimal strings
are represented exactly as an integer mantissa with a power-of-ten scale, and
real-valued facts are stated over `ℚ`), stateful loops become explicit
recursion with oracle functions standing for the outcomes of API calls, and Go
functions returning `(value, error)` become values of `GoResult`.
-/

/-! ### Go strconv fragment

`parseFloat` in `scaleloadconfig_controller.go` wraps `strconv.ParseFloat`.
We model the plain-decimal fragment of Go float syntax (optional sign, digits,
optional fractional part); exponent, hexadecimal, `inf` and `nan` forms are
outside the configuration space exercised by the operator.  A parsed value is
represented exactly as `(mantissa, scale)` meaning `mantissa / 10 ^ scale`.
-/

/-- Consume an optional leading sign, returning the sign as `±1` and the rest. -/
def splitSign : List Char → ℤ × List Char
  | [] => (1, [])
  | c :: cs =>
    if c = Char.ofNat 45 then (-1, cs)
    else if c = Char.ofNat 43 then (1, cs)
    else (1, c :: cs)

/-- Value of a digit string, most significant digit first. -/
def digitsToNat (cs : List Char) : ℕ :=
  cs.foldl (fun a c => 10 * a + (c.toNat - 48)) 0

/-- Model of `parseFloat` (`strconv.ParseFloat`) on plain decimal strings:
returns the exact value as `(mantissa, scale)` with value `mantissa / 10^scale`,
or `none` when the string is not a decimal (Go returns an error). -/
def parseFloat (s : String) : Option (ℤ × ℕ) :=
  let p := splitSign s.toList
  let sign := p.1
  match p.2.splitOn (Char.ofNat 46) with
  | [ds] =>
    if ds.isEmpty || !ds.all Char.isDigit then none
    else some (sign * (digitsToNat ds : ℤ), 0)
  | [ds, fs] =>
    if (ds.isEmpty && fs.isEmpty) || !ds.all Char.isDigit || !fs.all Char.isDigit then none
    else some (sign * ((digitsToNat ds : ℤ) * 10 ^ fs.length + (digitsToNat fs : ℤ)), fs.length)
  | _ => none

/-- Model of `strconv.Atoi`: optional sign followed by one or more digits
(the int-range overflow check is not modelled; values stay abstract in `ℤ`). -/
def strconvAtoi (s : String) : Option ℤ :=
  let p := splitSign s.toList
  if p.2.isEmpty || !p.2.all Char.isDigit then none
  else some (p.1 * (digitsToNat p.2 : ℤ))

/-- The rational number denoted by mantissa `m` at scale `k`. -/
def decimalValue (m : ℤ) (k : ℕ) : ℚ := (m : ℚ) / 10 ^ k

/-- Exact ceiling of `a / d` over the integers (`d` a positive natural in all
uses); stands for `math.Ceil` applied to an exactly-representable quotient. -/
def ceilDiv (a : ℤ) (d : ℕ) : ℤ := -((-a) / (d : ℤ))

/-! ### ScalingPlanner (`scaleloadconfig_controller.go`) -/

/-- Body of one branch of `calculateTargetNamespaces`:
`int(math.Ceil(float64(nodeCount) * ratio))` with ratio `m / 10^k`. -/
def ceilNodesTimes (nodeCount : ℕ) (m : ℤ) (k : ℕ) : ℤ :=
  ceilDiv ((nodeCount : ℤ) * m) (10 ^ k)

/-- Model of `calculateTargetNamespaces`: an explicit `namespacesPerNode`
string that parses is used as the ratio; a configured string that fails to
parse falls back to ratio `0.6`; with no explicit ratio the named profile
selects the ratio (development `0.2`, staging `0.4`, extreme `1.0`, any other
name — including `production` — `0.6`). -/
def calculateTargetNamespaces (namespacesPerNode : Option String) (profile : String)
    (nodeCount : ℕ) : ℤ :=
  match namespacesPerNode with
  | some s =>
    match parseFloat s with
    | some (m, k) => ceilNodesTimes nodeCount m k
    | none => ceilNodesTimes nodeCount 6 1
  | none =>
    if profile = "development" then ceilNodesTimes nodeCount 2 1
    else if profile = "staging" then ceilNodesTimes nodeCount 4 1
    else if profile = "extreme" then ceilNodesTimes nodeCount 10 1
    else ceilNodesTimes nodeCount 6 1

/-- Model of `calculateReconcileInterval`, in seconds. -/
def calculateReconcileIntervalSeconds (profile : String) : ℤ :=
  if profile = "development" then 120
  else if profile = "staging" then 90
  else if profile = "extreme" then 30
  else 60

/-! ### Managed namespaces and interval gating (`part_000`) -/

/-- A managed namespace as the engine sees it: name, creation timestamp
(abstract clock value) and identity labels. -/
structure ManagedNamespace where
  name : String
  creationTimestamp : ℤ
  labels : List (String × String)
deriving DecidableEq

/-- Label key carrying the namespace index. -/
def nsIndexKey : String := "scale.openshift.io/namespace-index"

/-- Go map lookup `namespace.Labels[key]`, over an association list. -/
def lookupLabel (labels : List (String × String)) (key : String) : Option String :=
  (labels.find? (fun p => p.1 == key)).map (fun p => p.2)

/-- Model of `shouldCreateResourceForNamespace`: interval `≤ 1` always passes;
a missing or unparsable index label passes; otherwise pass exactly when
`index % interval == 0` (Go `%` is truncated remainder, `Int.tmod`). -/
def shouldCreateResourceForNamespace (ns : ManagedNamespace) (interval : ℤ) : Bool :=
  if interval ≤ 1 then true
  else
    match lookupLabel ns.labels nsIndexKey with
    | none => true
    | some idxStr =>
      match strconvAtoi idxStr with
      | none => true
      | some idx => idx.tmod interval == 0

/-- Gating structure of `manageNamespaceResources` for one target-count kind:
the kind's manage function runs iff the kind is enabled and the namespace
passes the interval gate; otherwise the kind is skipped entirely. -/
def manageKindInvoked (enabled : Bool) (ns : ManagedNamespace) (interval : ℤ) : Bool :=
  enabled && shouldCreateResourceForNamespace ns interval

/-! ### NamespaceLifecycle deletion (`deleteNamespaces`) -/

/-- Ordering used by `deleteNamespaces`' sort: by creation timestamp.
`sort.Slice` is called with the strict `Before` comparator; the result is a
nondecreasing-by-timestamp permutation, captured here by sorting under `≤`
(tie order among equal timestamps is unspecified in Go and fixed here). -/
def byCreation (a b : ManagedNamespace) : Prop :=
  a.creationTimestamp ≤ b.creationTimestamp

instance : DecidableRel byCreation :=
  fun a b => inferInstanceAs (Decidable (a.creationTimestamp ≤ b.creationTimestamp))

instance : IsTrans ManagedNamespace byCreation :=
  ⟨fun _ _ _ hab hbc => le_trans hab hbc⟩

instance : IsTotal ManagedNamespace byCreation :=
  ⟨fun a b => le_total a.creationTimestamp b.creationTimestamp⟩

/-- One namespace deletion issued by `deleteNamespaces`: the target namespace
and the grace period passed to the delete call (`some 30` for graceful
deletes, `none` for an immediate delete). -/
structure NamespaceDeleteOp where
  target : ManagedNamespace
  gracePeriodSeconds : Option ℤ
deriving DecidableEq

/-- Model of `deleteNamespaces`: sort the candidates by creation timestamp
ascending and delete the first `count` (fewer when the list is shorter), each
with a 30-second grace period when `gracefulDeletes` is set and immediately
otherwise. -/
def deleteNamespaces (gracefulDeletes : Bool) (namespaces : List ManagedNamespace)
    (count : ℕ) : List NamespaceDeleteOp :=
  let sorted := List.insertionSort byCreation namespaces
  (sorted.take count).map
    (fun ns => ⟨ns, if gracefulDeletes then some 30 else none⟩)

/-- The namespaces `deleteNamespaces` leaves alone: the remainder of the
timestamp-sorted candidate list. -/
def remainingNamespaces (namespaces : List ManagedNamespace) (count : ℕ) :
    List ManagedNamespace :=
  (List.insertionSort byCreation namespaces).drop count

/-! ### ResourceChurnEngine: target-count convergence (`part_000`)

Each manage function lists the existing managed objects of its kind (their
number is `currentCount`, the list is positions `0 .. currentCount-1` in store
order), creates objects `load-<kind>-<i>` for `i = currentCount .. target-1`,
and deletes list entries from position `len-1` down to `target`.  API-call
outcomes are supplied by oracle functions; the first failing call aborts the
function, which then returns the Go `(count, error)` pair, modelled as
`GoResult` (carrying the count Go returns alongside the error). -/

/-- Creation loop `for i := currentCount; i < target; i++`: returns the
indices created in order and whether the loop ran to completion. -/
def upLoop : ℕ → ℤ → (ℤ → Bool) → List ℤ × Bool
  | 0, _, _ => ([], true)
  | n + 1, i, ok =>
    if ok i then
      let r := upLoop n (i + 1) ok
      (i :: r.1, r.2)
    else ([], false)

/-- Deletion loop `for i := len-1; i >= target; i--`: returns the positions
deleted in order and whether the loop ran to completion. -/
def downLoop : ℕ → ℤ → (ℤ → Bool) → List ℤ × Bool
  | 0, _, _ => ([], true)
  | n + 1, i, ok =>
    if ok i then
      let r := downLoop n (i - 1) ok
      (i :: r.1, r.2)
    else ([], false)

/-- Churn pass `performResourceChurn`: each listed object (positions
`0 .. listed-1`) is independently selected with probability 0.1 (here: by the
`selected` oracle) and updated best-effort; the updated positions are those
selected whose update succeeded.  Update failures are logged, never fatal. -/
def performResourceChurn (listed : ℕ) (selected updateOk : ℕ → Bool) : List ℕ :=
  (List.range listed).filter (fun p => selected p && updateOk p)

/-- The `(int32, error)` pair a manage function returns: the count together
with whether an error accompanied it. -/
inductive GoResult
  | ok (count : ℤ)
  | failed (count : ℤ)
deriving DecidableEq

/-- Result of one target-count manage function. -/
structure KindConvergeResult where
  createdIndices : List ℤ
  deletedPositions : List ℤ
  churnUpdated : List ℕ
  returned : GoResult
deriving DecidableEq

/-- Model of `manageConfigMaps`: scale up to `target`, then scale down from
the end of the listed objects, then churn the originally-listed objects; on
success return the target count (not the observed or achieved count). -/
def manageConfigMaps (currentCount target : ℤ) (createOk deleteOk : ℤ → Bool)
    (churnSelected churnOk : ℕ → Bool) : KindConvergeResult :=
  let up := upLoop (target - currentCount).toNat currentCount createOk
  if up.2 = false then ⟨up.1, [], [], .failed (currentCount + up.1.length)⟩
  else
    let down := downLoop (currentCount - target).toNat (currentCount - 1) deleteOk
    if down.2 = false then
      ⟨up.1, down.1, [], .failed (currentCount - down.1.length)⟩
    else
      ⟨up.1, down.1, performResourceChurn currentCount.toNat churnSelected churnOk, .ok target⟩

/-- Model of `manageSecrets`; same structure as `manageConfigMaps`
(the Go source duplicates the logic per kind). -/
def manageSecrets (currentCount target : ℤ) (createOk deleteOk : ℤ → Bool)
    (churnSelected churnOk : ℕ → Bool) : KindConvergeResult :=
  let up := upLoop (target - currentCount).toNat currentCount createOk
  if up.2 = false then ⟨up.1, [], [], .failed (currentCount + up.1.length)⟩
  else
    let down := downLoop (currentCount - target).toNat (currentCount - 1) deleteOk
    if down.2 = false then
      ⟨up.1, down.1, [], .failed (currentCount - down.1.length)⟩
    else
      ⟨up.1, down.1, performResourceChurn currentCount.toNat churnSelected churnOk, .ok target⟩

/-- Model of `manageImageStreams`: as the ConfigMap logic but with no churn
pass, and the count returned with a create/delete error is plain
`currentCount` (the Go code does not add the progress made). -/
def manageImageStreams (currentCount target : ℤ) (createOk deleteOk : ℤ → Bool) :
    KindConvergeResult :=
  let up := upLoop (target - currentCount).toNat currentCount createOk
  if up.2 = false then ⟨up.1, [], [], .failed currentCount⟩
  else
    let down := downLoop (currentCount - target).toNat (currentCount - 1) deleteOk
    if down.2 = false then ⟨up.1, down.1, [], .failed currentCount⟩
    else ⟨up.1, down.1, [], .ok target⟩

/-- Model of `manageBuildConfigs`; same structure as `manageImageStreams`. -/
def manageBuildConfigs (currentCount target : ℤ) (createOk deleteOk : ℤ → Bool) :
    KindConvergeResult :=
  let up := upLoop (target - currentCount).toNat currentCount createOk
  if up.2 = false then ⟨up.1, [], [], .failed currentCount⟩
  else
    let down := downLoop (currentCount - target).toNat (currentCount - 1) deleteOk
    if down.2 = false then ⟨up.1, down.1, [], .failed currentCount⟩
    else ⟨up.1, down.1, [], .ok target⟩

/-! ### Routes: paired service handling -/

/-- Outcome of one store API call, distinguishing the conditions the route
logic treats specially. -/
inductive ApiOutcome
  | ok
  | alreadyExists
  | notFound
  | failed
deriving DecidableEq

/-- Name of the service paired with route index `i`. -/
def pairedServiceName (i : ℤ) : String := "load-service-" ++ toString i

/-- Route creation loop: for each new index, create the backing service
(tolerating `AlreadyExists`), then the route.  Returns service-create calls
issued, routes created, and completion. -/
def routeUpLoop : ℕ → ℤ → (ℤ → ApiOutcome) → (ℤ → ApiOutcome) → List ℤ × List ℤ × Bool
  | 0, _, _, _ => ([], [], true)
  | n + 1, i, svcCreate, routeCreate =>
    match svcCreate i with
    | .ok | .alreadyExists =>
      match routeCreate i with
      | .ok =>
        let r := routeUpLoop n (i + 1) svcCreate routeCreate
        (i :: r.1, i :: r.2.1, r.2.2)
      | _ => ([i], [], false)
    | _ => ([], [], false)

/-- Route deletion loop: delete the route at each position from the end down
to `target`, then delete its paired service `load-service-<i>` (tolerating
`NotFound`).  Returns route positions deleted, service delete calls issued,
and completion. -/
def routeDownLoop : ℕ → ℤ → (ℤ → ApiOutcome) → (ℤ → ApiOutcome) → List ℤ × List String × Bool
  | 0, _, _, _ => ([], [], true)
  | n + 1, i, routeDelete, svcDelete =>
    match routeDelete i with
    | .ok =>
      match svcDelete i with
      | .ok | .notFound =>
        let r := routeDownLoop n (i - 1) routeDelete svcDelete
        (i :: r.1, pairedServiceName i :: r.2.1, r.2.2)
      | _ => ([i], [pairedServiceName i], false)
    | _ => ([], [], false)

/-- Result of `manageRoutes`. -/
structure RouteConvergeResult where
  serviceCreateCalls : List ℤ
  createdRoutes : List ℤ
  deletedRoutePositions : List ℤ
  serviceDeleteCalls : List String
  returned : GoResult
deriving DecidableEq

/-- Model of `manageRoutes`: scale up creating service+route pairs, scale down
deleting routes from the end with their paired services; on success return the
target count, on any fatal error return `currentCount` with the error. -/
def manageRoutes (currentCount target : ℤ) (svcCreate routeCreate routeDelete svcDelete : ℤ → ApiOutcome) :
    RouteConvergeResult :=
  let up := routeUpLoop (target - currentCount).toNat currentCount svcCreate routeCreate
  if up.2.2 = false then ⟨up.1, up.2.1, [], [], .failed currentCount⟩
  else
    let down := routeDownLoop (currentCount - target).toNat (currentCount - 1) routeDelete svcDelete
    if down.2.2 = false then ⟨up.1, up.2.1, down.1, down.2.1, .failed currentCount⟩
    else ⟨up.1, up.2.1, down.1, down.2.1, .ok target⟩

/-- The list `i, i - 1, ..., i - n + 1` of `n` descending integers. -/
def descFrom (i : ℤ) : ℕ → List ℤ
  | 0 => []
  | n + 1 => i :: descFrom (i - 1) n

/-- The positions deleted by a scale-down from `currentCount` objects to
`target`: `currentCount - 1, currentCount - 2, ..., target`. -/
def descendingPositions (currentCount target : ℤ) : List ℤ :=
  descFrom (currentCount - 1) (currentCount - target).toNat

/-! ### Events (`manageEvents`): rate-based, not target-count -/

/-- Nanoseconds per hour (Go `time.Duration` counts nanoseconds and
`Hours()` divides by this). -/
def nanosPerHour : ℕ := 3600000000000

/-- Nanoseconds in the 1-minute default used when the last-reconcile time is
unset (first run). -/
def firstRunElapsedNanos : ℕ := 60000000000

/-- Model of `manageEvents`: a non-positive configured rate defaults to 50
events per hour; the number of creates attempted is
`floor(rate × hoursSinceLastReconcile)` capped at 10; each indexed create is
attempted exactly once, failures are counted but not retried, and the number
of successful creates is returned.  Elapsed time is exact in nanoseconds. -/
def manageEvents (eventsPerHour : ℤ) (lastReconcileZero : Bool) (elapsedNanos : ℕ)
    (createOk : ℕ → Bool) : List ℕ × ℕ :=
  let rate := if eventsPerHour ≤ 0 then 50 else eventsPerHour
  let elapsed : ℕ := if lastReconcileZero then firstRunElapsedNanos else elapsedNanos
  let toCreate : ℤ := rate * (elapsed : ℤ) / (nanosPerHour : ℤ)
  let toCreate := if toCreate > 10 then 10 else toCreate
  let attempts := List.range toCreate.toNat
  (attempts, (attempts.filter createOk).length)

/-! ### RateBudget and the reconcile tick (`Reconcile`)

`checkAPIRateLimit` and `getEffectiveAPIRate` are called from `Reconcile` but
their definitions are not among the available sources; they are modelled from
the design spec (§4.1 RateBudget).  Times are in seconds. -/

/-- Rate-limiting state held in the reconciler (`apiCallCounter`,
`lastRateLimitReset`). -/
structure RateState where
  counter : ℤ
  windowStart : ℤ
deriving DecidableEq

/-- Modelled from the spec: `getEffectiveAPIRate` is absent from the available
sources.  §4.1: strict precedence — a static total rate if set; else a
per-node rate times the node count; else the deprecated single rate treated
as per-node; else the default per-node rate (20) times the node count. -/
def getEffectiveAPIRate (rateStatic ratePerNode rateDeprecated : Option ℤ)
    (nodeCount : ℕ) : ℤ :=
  match rateStatic with
  | some s => s
  | none =>
    match ratePerNode with
    | some p => p * (nodeCount : ℤ)
    | none =>
      match rateDeprecated with
      | some d => d * (nodeCount : ℤ)
      | none => 20 * (nodeCount : ℤ)

/-- Modelled from the spec: `checkAPIRateLimit` is absent from the available
sources.  §4.1: reset the counter when the 1-minute window has elapsed; admit
iff `counter + estimatedCalls <= effectiveRate`, incrementing the counter on
admit and leaving it unchanged on denial. -/
def checkAPIRateLimit (st : RateState) (now effectiveRate estimatedCalls : ℤ) :
    Bool × RateState :=
  let st' := if now - st.windowStart ≥ 60 then RateState.mk 0 now else st
  if st'.counter + estimatedCalls ≤ effectiveRate then
    (true, ⟨st'.counter + estimatedCalls, st'.windowStart⟩)
  else (false, st')

/-- Observable side effects of one reconcile tick past the rate check. -/
structure TickEffects where
  namespacesCreated : ℕ
  namespacesDeleted : ℕ
  resourceOps : ℕ
  nodeAnnotationUpdates : ℕ
  statusUpdated : Bool
deriving DecidableEq

/-- The empty effect set: nothing created, deleted, converged or published. -/
def noEffects : TickEffects := ⟨0, 0, 0, 0, false⟩

/-- Model of the enabled (`Active`) path of `Reconcile` around the rate gate:
compute the target namespace count, estimate `5 × targetNamespaces` API calls,
and consult `checkAPIRateLimit`; when denied, requeue after exactly one minute
with no effects; when admitted, perform the convergence work (abstracted by
`convergeEffects`), update status, and requeue after the profile interval. -/
def reconcileActive (rateStatic ratePerNode rateDeprecated : Option ℤ)
    (namespacesPerNode : Option String) (profile : String) (nodeCount : ℕ)
    (st : RateState) (now : ℤ) (convergeEffects : TickEffects) :
    ℤ × TickEffects × RateState :=
  let target := calculateTargetNamespaces namespacesPerNode profile nodeCount
  let estimatedAPICalls := target * 5
  let effectiveRate := getEffectiveAPIRate rateStatic ratePerNode rateDeprecated nodeCount
  let check := checkAPIRateLimit st now effectiveRate estimatedAPICalls
  if check.1 then
    (calculateReconcileIntervalSeconds profile,
      { convergeEffects with statusUpdated := true }, check.2)
  else (60, noEffects, check.2)

/-! ### AnnotationChurnSimulator retry (`node_annotation_manager.go`) -/

/-- Outcome of one read-modify-write attempt on a node: the update succeeded,
hit an optimistic-concurrency conflict, or failed for any other reason
(including a failed re-fetch). -/
inductive AttemptResult
  | success
  | conflict
  | fatal
deriving DecidableEq

/-- Overall outcome of the bounded retry. -/
inductive RetryOutcome
  | succeeded
  | timedOut
  | failed
deriving DecidableEq

/-- Retry parameters, mirroring `wait.Backoff`. -/
structure BackoffParams where
  steps : ℕ
  durationMs : ℕ
  factor : ℚ
  jitter : ℚ
deriving DecidableEq

/-- The backoff configured in `updateNodeWithRetry`:
`Steps: 5, Duration: 100ms, Factor: 2.0, Jitter: 0.1`. -/
def nodeUpdateBackoff : BackoffParams := ⟨5, 100, 2, 1 / 10⟩

/-- Semantics of `wait.ExponentialBackoff` over an attempt oracle: run the
condition at most `steps` times; success stops with one persisted update, a
conflict retries, any other error aborts immediately.  Returns the outcome,
the number of attempts made, and the number of persisted updates. -/
def runRetry : ℕ → ℕ → (ℕ → AttemptResult) → RetryOutcome × ℕ × ℕ
  | 0, _, _ => (.timedOut, 0, 0)
  | n + 1, i, attempt =>
    match attempt i with
    | .success => (.succeeded, 1, 1)
    | .fatal => (.failed, 1, 0)
    | .conflict =>
      let r := runRetry n (i + 1) attempt
      (r.1, r.2.1 + 1, r.2.2)

/-- Model of `updateNodeWithRetry` for one node, with the attempt outcomes
supplied by an oracle indexed by attempt number (0-based). -/
def updateNodeWithRetry (attempt : ℕ → AttemptResult) : RetryOutcome × ℕ × ℕ :=
  runRetry nodeUpdateBackoff.steps 0 attempt

/-- The merge performed inside each attempt: re-fetch the node and overlay the
precomputed annotation diff onto its latest annotations (diff entries win). -/
def mergeAnnotations (latest diff : String → Option String) : String → Option String :=
  fun k =>
    match diff k with
    | some v => some v
    | none => latest k

/-- Model of the per-node loop in `updateNodeAnnotations`: every node with a
non-empty diff gets its own bounded retry; a failure is logged for that node
only and the loop continues with the remaining nodes. -/
def updateNodesLoop (nodes : List String) (attempt : String → ℕ → AttemptResult) :
    List (String × (RetryOutcome × ℕ × ℕ)) :=
  nodes.map (fun n => (n, updateNodeWithRetry (attempt n)))

/-! ### Status manager (`status_manager.go`) -/

/-- Fixed-point rendering of `c` hundredths as a two-decimal string. -/
def formatCents (c : ℤ) : String :=
  let sign := if c < 0 then "-" else ""
  let a := c.natAbs
  let frac := a % 100
  sign ++ toString (a / 100) ++ "." ++ (if frac < 10 then "0" else "") ++ toString frac

/-- Model of `strconv.FormatFloat(x, 'f', 2, 64)`: the value rounded to two
decimals (the claims only evaluate it at exactly-representable inputs). -/
def formatFixed2 (q : ℚ) : String := formatCents (round (q * 100))

/-- The decimal-string metrics block published in status. -/
structure LoadGenerationMetrics where
  apiCallsPerMinute : String
  averageReconcileTimeMs : String
  errorRate : String
  resourceCreationRate : String
  resourceUpdateRate : String
  resourceDeletionRate : String

/-- Model of `calculateMetrics`: estimated API calls are 10% of total
resources, rates derive from the creation rate, and the error rate is the
constant `FormatFloat(0.0, 'f', 2, 64)` (a TODO in the source). -/
def calculateMetrics (totalResources : ℤ) (elapsedMinutes : ℚ) (elapsedMillis : ℤ) :
    LoadGenerationMetrics :=
  let creationRate : ℚ := (totalResources : ℚ) / elapsedMinutes
  { apiCallsPerMinute := formatFixed2 ((totalResources : ℚ) * (1 / 10))
    averageReconcileTimeMs := toString elapsedMillis
    errorRate := formatFixed2 0
    resourceCreationRate := formatFixed2 creationRate
    resourceUpdateRate := formatFixed2 (creationRate * (3 / 10))
    resourceDeletionRate := formatFixed2 (creationRate * (1 / 20)) }

/-- One status condition (type, boolean status, reason, message). -/
structure StatusCondition where
  condType : String
  statusTrue : Bool
  reason : String
  message : String
deriving DecidableEq

/-- The Degraded condition in its normal state. -/
def degradedNormal : StatusCondition :=
  ⟨"Degraded", false, "OperatingNormally", "Load generation is operating normally"⟩

/-- The Degraded condition computed by `updateConditions`: True only when the
status error-rate string parses and its value exceeds 10.0 (exactly:
`mantissa > 10 × 10^scale`). -/
def degradedCondition (errorRateStr : String) : StatusCondition :=
  match parseFloat errorRateStr with
  | some (m, k) =>
    if 10 * 10 ^ k < m then ⟨"Degraded", true, "HighErrorRate", "High error rate"⟩
    else degradedNormal
  | none => degradedNormal

/-- Model of `updateConditions`: Ready, Scaling, and Degraded. -/
def updateConditions (enabled : Bool) (kwokNodeCount : ℕ) (errorRateStr : String) :
    List StatusCondition :=
  let ready : StatusCondition :=
    if !enabled then ⟨"Ready", false, "LoadGenerationDisabled", "Load generation is disabled"⟩
    else if kwokNodeCount = 0 then
      ⟨"Ready", false, "NoKwokNodes", "No KWOK nodes found matching selector"⟩
    else
      ⟨"Ready", true, "LoadGenerationActive",
        "Successfully generating load for " ++ toString kwokNodeCount ++ " KWOK nodes"⟩
  let scaling : StatusCondition :=
    if kwokNodeCount = 0 then
      ⟨"Scaling", false, "NoScaling", "No scaling activities due to zero KWOK nodes"⟩
    else ⟨"Scaling", true, "ResourcesScaling", "Resources are scaling with KWOK node count"⟩
  [ready, scaling, degradedCondition errorRateStr]

/-- Per-kind resource totals in status. -/
structure ResourceCounts where
  configMaps : ℤ
  secrets : ℤ
  routes : ℤ
  imageStreams : ℤ
  buildConfigs : ℤ
  events : ℤ
deriving DecidableEq

/-- `getTotalResourceCount` over the aggregated counts map. -/
def totalResourceCount (counts : String → ℤ) : ℤ :=
  counts "configMaps" + counts "secrets" + counts "routes" + counts "imageStreams" +
    counts "buildConfigs" + counts "events"

/-- The status fields written by one `updateStatus` call. -/
structure StatusState where
  kwokNodeCount : ℤ
  generatedNamespaces : ℤ
  totalResources : ResourceCounts
  metrics : LoadGenerationMetrics
  conditions : List StatusCondition

/-- Model of `updateStatus`: copy the node and namespace counts, copy the
per-kind entries of the aggregated counts map into `TotalResources`, store the
freshly computed metrics, and compute conditions from the just-written
metrics (so Degraded sees the new error-rate string). -/
def updateStatus (enabled : Bool) (kwokNodeCount namespaceCount : ℕ)
    (resourceCounts : String → ℤ) (elapsedMinutes : ℚ) (elapsedMillis : ℤ) : StatusState :=
  let metrics := calculateMetrics (totalResourceCount resourceCounts)
    elapsedMinutes elapsedMillis
  { kwokNodeCount := (kwokNodeCount : ℤ)
    generatedNamespaces := (namespaceCount : ℤ)
    totalResources :=
      ⟨resourceCounts "configMaps", resourceCounts "secrets", resourceCounts "routes",
        resourceCounts "imageStreams", resourceCounts "buildConfigs", resourceCounts "events"⟩
    metrics := metrics
    conditions := updateConditions enabled kwokNodeCount metrics.errorRate }

/-! ### Concrete instances used by witnesses -/

/-- A managed namespace carrying index `i` in its index label, as
`createNamespaces` stamps it. -/
def indexedNamespace (i : ℕ) : ManagedNamespace :=
  ⟨"openshift-fake-" ++ toString i, (i : ℤ), [(nsIndexKey, toString i)]⟩

/-- Concrete namespace with index 7 for the gate witness. -/
def gateExampleNamespace : ManagedNamespace := ⟨"ns-7", 0, [(nsIndexKey, "7")]⟩

/-- Unsorted candidate list for the deletion witness. -/
def deleteExampleNamespaces : List ManagedNamespace :=
  [⟨"n-a", 5, []⟩, ⟨"n-b", 1, []⟩, ⟨"n-c", 3, []⟩]

/-- The oldest candidate's delete operation (graceful). -/
def deleteExampleOp : NamespaceDeleteOp := ⟨⟨"n-b", 1, []⟩, some 30⟩

/-- The youngest candidate, which survives deleting two of three. -/
def deleteExampleKept : ManagedNamespace := ⟨"n-a", 5, []⟩

/-- Concrete aggregated resource counts for the status witness. -/
def statusExampleCounts : String → ℤ :=
  fun key => if key = "configMaps" then 4 else if key = "secrets" then 3 else 0

/-- Concrete aggregated resource counts for the published-totals witness. -/
def totalsExampleCounts : String → ℤ :=
  fun key => if key = "routes" then 2 else if key = "events" then 7 else 1

/-! ## Theorems -/

/-! ### Bridges between the integer embedding and exact real-valued statements -/

/-- `ceilDiv` computes the mathematical ceiling of the rational quotient. -/
theorem ceilDiv_eq_ceil (a : ℤ) (d : ℕ) : ceilDiv a d = ⌈(a : ℚ) / (d : ℚ)⌉ := by
  unfold ceilDiv
  rw [← Rat.floor_intCast_div_natCast (-a) d]
  rw [neg_eq_iff_eq_neg, ← Int.floor_neg]
  push_cast
  ring_nf

/-- The per-branch computation of `calculateTargetNamespaces` is the exact
ceiling of node count times the decimal ratio. -/
theorem ceilNodesTimes_eq (n : ℕ) (m : ℤ) (k : ℕ) :
    ceilNodesTimes n m k = ⌈(n : ℚ) * decimalValue m k⌉ := by
  unfold ceilNodesTimes decimalValue
  rw [ceilDiv_eq_ceil]
  congr 1
  push_cast
  ring

/-- Zero nodes always yield a zero per-branch target. -/
theorem ceilNodesTimes_zero (m : ℤ) (k : ℕ) : ceilNodesTimes 0 m k = 0 := by
  simp [ceilNodesTimes, ceilDiv]

/-- A nonnegative ratio yields a nonnegative per-branch target. -/
theorem ceilNodesTimes_nonneg (n : ℕ) (m : ℤ) (k : ℕ) (hm : 0 ≤ m) :
    0 ≤ ceilNodesTimes n m k := by
  rw [ceilNodesTimes_eq]
  refine Int.ceil_nonneg (mul_nonneg (by positivity) ?_)
  unfold decimalValue
  have hm' : (0 : ℚ) ≤ (m : ℚ) := by exact_mod_cast hm
  positivity

/-! ### C1 -/

/-- Claim C1: for every node count `N ≥ 0`, `calculateTargetNamespaces`
returns `ceil(N × r)` when an explicit ratio string `r` is configured and
parses; with no explicit ratio it uses the named-profile default ratio
(development 0.2, staging 0.4, extreme 1.0, production 0.6, unknown names
falling back to production's 0.6); `N = 0` yields 0 for every ratio and
profile; and `N = 10` with ratio `0.6` yields 6 while `N = 126` with ratio
`0.6` yields 76. -/
theorem calculateTargetNamespaces_correct :
    (∀ (nodeCount : ℕ) (p s : String) (m : ℤ) (k : ℕ), parseFloat s = some (m, k) →
      calculateTargetNamespaces (some s) p nodeCount = ⌈(nodeCount : ℚ) * decimalValue m k⌉)
    ∧ (∀ n : ℕ, calculateTargetNamespaces none "development" n = ⌈(n : ℚ) * (2 / 10)⌉)
    ∧ (∀ n : ℕ, calculateTargetNamespaces none "staging" n = ⌈(n : ℚ) * (4 / 10)⌉)
    ∧ (∀ n : ℕ, calculateTargetNamespaces none "extreme" n = ⌈(n : ℚ) * 1⌉)
    ∧ (∀ (n : ℕ) (p : String), p ≠ "development" → p ≠ "staging" → p ≠ "extreme" →
      calculateTargetNamespaces none p n = ⌈(n : ℚ) * (6 / 10)⌉)
    ∧ (∀ (nppn : Option String) (p : String), calculateTargetNamespaces nppn p 0 = 0)
    ∧ calculateTargetNamespaces (some "0.6") "production" 10 = 6
    ∧ calculateTargetNamespaces (some "0.6") "production" 126 = 76 := by
  refine ⟨?_, ?_, ?_, ?_, ?_, ?_, by decide, by decide⟩
  · intro n p s m k hparse
    simp only [calculateTargetNamespaces, hparse]
    exact ceilNodesTimes_eq n m k
  · intro n
    have h : calculateTargetNamespaces none "development" n = ceilNodesTimes n 2 1 := rfl
    rw [h, ceilNodesTimes_eq]
    norm_num [decimalValue]
  · intro n
    have h : calculateTargetNamespaces none "staging" n = ceilNodesTimes n 4 1 := rfl
    rw [h, ceilNodesTimes_eq]
    norm_num [decimalValue]
  · intro n
    have h : calculateTargetNamespaces none "extreme" n = ceilNodesTimes n 10 1 := rfl
    rw [h, ceilNodesTimes_eq]
    norm_num [decimalValue]
  · intro n p h1 h2 h3
    simp only [calculateTargetNamespaces, h1, h2, h3, if_false]
    rw [ceilNodesTimes_eq]
    norm_num [decimalValue]
  · intro nppn p
    match nppn with
    | some s =>
      simp only [calculateTargetNamespaces]
      match parseFloat s with
      | some (m, k) => exact ceilNodesTimes_zero m k
      | none => exact ceilNodesTimes_zero 6 1
    | none =>
      simp only [calculateTargetNamespaces]
      split
      · exact ceilNodesTimes_zero 2 1
      · split
        · exact ceilNodesTimes_zero 4 1
        · split
          · exact ceilNodesTimes_zero 10 1
          · exact ceilNodesTimes_zero 6 1

/-- Witness for C1 at concrete inputs. -/
theorem calculateTargetNamespaces_correct_witness :
    parseFloat "0.5" = some (5, 1) ∧
    calculateTargetNamespaces (some "0.5") "production" 7 = ⌈(7 : ℚ) * decimalValue 5 1⌉ :=
  ⟨by decide, calculateTargetNamespaces_correct.1 7 "production" "0.5" 5 1 (by decide)⟩

/-! ### C8 -/

/-- Claim C8 counterexample: the string `"-1"` parses (Go `strconv.ParseFloat`
accepts a sign), is not replaced by the 0.6 fallback, and with one node the
computed target namespace count is negative. -/
theorem negativeRatioCounterexample :
    parseFloat "-1" = some (-1, 0) ∧
    calculateTargetNamespaces (some "-1") "production" 1 < 0 := by
  decide

/-- Claim C8 amended: an input that does not parse as a decimal falls back to
the default ratio 0.6 (so the target is then nonnegative), and any input that
parses to a nonnegative value also yields a nonnegative target; but an input
parsing to a negative decimal (accepted by Go's parser, excluded only by the
CRD admission pattern) is used as-is and can make the target negative. -/
theorem calculateTargetNamespaces_nonneg_amended :
    (∀ (s p : String) (n : ℕ), parseFloat s = none →
      calculateTargetNamespaces (some s) p n = ⌈(n : ℚ) * (6 / 10)⌉)
    ∧ (∀ (s p : String) (n : ℕ) (m : ℤ) (k : ℕ), parseFloat s = some (m, k) → 0 ≤ m →
      0 ≤ calculateTargetNamespaces (some s) p n)
    ∧ (∀ (p : String) (n : ℕ), 0 ≤ calculateTargetNamespaces none p n) := by
  refine ⟨?_, ?_, ?_⟩
  · intro s p n hparse
    simp only [calculateTargetNamespaces, hparse]
    rw [ceilNodesTimes_eq]
    norm_num [decimalValue]
  · intro s p n m k hparse hm
    simp only [calculateTargetNamespaces, hparse]
    exact ceilNodesTimes_nonneg n m k hm
  · intro p n
    simp only [calculateTargetNamespaces]
    split
    · exact ceilNodesTimes_nonneg n 2 1 (by decide)
    · split
      · exact ceilNodesTimes_nonneg n 4 1 (by decide)
      · split
        · exact ceilNodesTimes_nonneg n 10 1 (by decide)
        · exact ceilNodesTimes_nonneg n 6 1 (by decide)

/-- Witness for the amended C8 at concrete inputs. -/
theorem calculateTargetNamespaces_nonneg_amended_witness :
    parseFloat "abc" = none ∧
    calculateTargetNamespaces (some "abc") "production" 3 = ⌈(3 : ℚ) * (6 / 10)⌉ ∧
    parseFloat "1.5" = some (15, 1) ∧
    0 ≤ calculateTargetNamespaces (some "1.5") "staging" 4 :=
  ⟨by decide, calculateTargetNamespaces_nonneg_amended.1 "abc" "production" 3 (by decide),
    by decide, calculateTargetNamespaces_nonneg_amended.2.1 "1.5" "staging" 4 15 1
      (by decide) (by decide)⟩

/-! ### C2 -/

/-- Claim C2: `shouldCreateResourceForNamespace` gates convergence by the
namespace-index label: interval `≤ 1` always passes; for interval `k > 1` it
passes exactly when the parsed index satisfies `i mod k = 0`; a missing or
unparsable index label passes; a failed gate skips the kind's resource
management entirely; and with interval 10 over indices 0–29 only the
namespaces at indices 0, 10 and 20 pass. -/
theorem shouldCreateResourceForNamespace_gate :
    (∀ (ns : ManagedNamespace) (k : ℤ), k ≤ 1 →
      shouldCreateResourceForNamespace ns k = true)
    ∧ (∀ (ns : ManagedNamespace) (k i : ℤ) (s : String), 1 < k →
        lookupLabel ns.labels nsIndexKey = some s → strconvAtoi s = some i →
        (shouldCreateResourceForNamespace ns k = true ↔ i.tmod k = 0))
    ∧ (∀ (ns : ManagedNamespace) (k : ℤ), lookupLabel ns.labels nsIndexKey = none →
        shouldCreateResourceForNamespace ns k = true)
    ∧ (∀ (ns : ManagedNamespace) (k : ℤ) (s : String),
        lookupLabel ns.labels nsIndexKey = some s → strconvAtoi s = none →
        shouldCreateResourceForNamespace ns k = true)
    ∧ (∀ (enabled : Bool) (ns : ManagedNamespace) (k : ℤ),
        shouldCreateResourceForNamespace ns k = false → manageKindInvoked enabled ns k = false)
    ∧ ((List.range 30).filter
        (fun i => shouldCreateResourceForNamespace (indexedNamespace i) 10) = [0, 10, 20]) := by
  refine ⟨?_, ?_, ?_, ?_, ?_, by decide⟩
  · intro ns k hk
    simp [shouldCreateResourceForNamespace, hk]
  · intro ns k i s hk hlook hatoi
    simp [shouldCreateResourceForNamespace, not_le.mpr hk, hlook, hatoi]
  · intro ns k hlook
    unfold shouldCreateResourceForNamespace
    split
    · rfl
    · rw [hlook]
  · intro ns k s hlook hatoi
    unfold shouldCreateResourceForNamespace
    split
    · rfl
    · rw [hlook]
      simp [hatoi]
  · intro enabled ns k hgate
    simp [manageKindInvoked, hgate]

/-- Witness for C2 at a concrete namespace and interval. -/
theorem shouldCreateResourceForNamespace_gate_witness :
    (1 : ℤ) < 10 ∧ lookupLabel gateExampleNamespace.labels nsIndexKey = some "7" ∧
    strconvAtoi "7" = some 7 ∧
    (shouldCreateResourceForNamespace gateExampleNamespace 10 = true ↔ (7 : ℤ).tmod 10 = 0) :=
  ⟨by decide, by decide, by decide,
    shouldCreateResourceForNamespace_gate.2.1 gateExampleNamespace 10 7 "7"
      (by decide) (by decide) (by decide)⟩

/-! ### C3 -/

/-- Claim C3: `deleteNamespaces` deletes exactly `min count len` namespaces,
oldest first (the deletion sequence is nondecreasing by creation timestamp),
every deleted namespace is at least as old as every kept one, deleted plus
kept is a permutation of the input in any input ordering, and each delete
carries a 30-second grace period iff graceful deletes are enabled. -/
theorem deleteNamespaces_oldest_first :
    ∀ (g : Bool) (nss : List ManagedNamespace) (count : ℕ),
      (deleteNamespaces g nss count).length = min count nss.length
      ∧ ((deleteNamespaces g nss count).map
          (fun op => op.target.creationTimestamp)).Pairwise (fun a b => a ≤ b)
      ∧ (∀ op ∈ deleteNamespaces g nss count, ∀ kept ∈ remainingNamespaces nss count,
          op.target.creationTimestamp ≤ kept.creationTimestamp)
      ∧ (((deleteNamespaces g nss count).map (fun op => op.target)) ++
          remainingNamespaces nss count).Perm nss
      ∧ (∀ op ∈ deleteNamespaces g nss count,
          op.gracePeriodSeconds = if g then some 30 else none) := by
  intro g nss count
  have hperm : (List.insertionSort byCreation nss).Perm nss :=
    List.perm_insertionSort byCreation nss
  have hsort : List.Sorted byCreation (List.insertionSort byCreation nss) :=
    List.sorted_insertionSort byCreation nss
  refine ⟨?_, ?_, ?_, ?_, ?_⟩
  · simp [deleteNamespaces, hperm.length_eq]
  · simp only [deleteNamespaces, List.map_map, Function.comp_def, List.pairwise_map]
    exact List.Pairwise.sublist (List.take_sublist _ _) hsort
  · intro op hop kept hkept
    have hsplit : List.Pairwise byCreation
        ((List.insertionSort byCreation nss).take count ++
          (List.insertionSort byCreation nss).drop count) := by
      rw [List.take_append_drop]
      exact hsort
    have h3 := (List.pairwise_append.mp hsplit).2.2
    simp only [deleteNamespaces, List.mem_map] at hop
    obtain ⟨ns, hns, rfl⟩ := hop
    exact h3 ns hns kept hkept
  · simp only [deleteNamespaces, remainingNamespaces, List.map_map, Function.comp_def,
      List.map_id']
    rw [List.take_append_drop]
    exact hperm
  · intro op hop
    simp only [deleteNamespaces, List.mem_map] at hop
    obtain ⟨ns, _, rfl⟩ := hop
    rfl

/-- Witness for C3 on a concrete unsorted candidate list. -/
theorem deleteNamespaces_oldest_first_witness :
    deleteExampleOp ∈ deleteNamespaces true deleteExampleNamespaces 2
    ∧ deleteExampleKept ∈ remainingNamespaces deleteExampleNamespaces 2
    ∧ deleteExampleOp.target.creationTimestamp ≤ deleteExampleKept.creationTimestamp
    ∧ deleteExampleOp.gracePeriodSeconds = if true then some 30 else none :=
  ⟨by decide, by decide,
    (deleteNamespaces_oldest_first true deleteExampleNamespaces 2).2.2.1 deleteExampleOp
      (by decide) deleteExampleKept (by decide),
    (deleteNamespaces_oldest_first true deleteExampleNamespaces 2).2.2.2.2 deleteExampleOp
      (by decide)⟩


/-! ### C4 -/

/-- `descFrom i n` has length `n`. -/
theorem descFrom_length (i : ℤ) (n : ℕ) : (descFrom i n).length = n := by
  induction n generalizing i with
  | zero => rfl
  | succ m ih => simp [descFrom, ih]

/-- Every member of `descFrom i n` lies in `(i - n, i]`. -/
theorem descFrom_mem (i p : ℤ) (n : ℕ) (hp : p ∈ descFrom i n) :
    i - (n : ℤ) < p ∧ p ≤ i := by
  induction n generalizing i with
  | zero => simp [descFrom] at hp
  | succ m ih =>
    simp only [descFrom, List.mem_cons] at hp
    rcases hp with rfl | hp
    · omega
    · have := ih (i - 1) hp
      omega

/-- `descFrom i n` is strictly decreasing. -/
theorem descFrom_pairwise (i : ℤ) (n : ℕ) :
    (descFrom i n).Pairwise (fun a b => b < a) := by
  induction n generalizing i with
  | zero => simp [descFrom]
  | succ m ih =>
    refine List.Pairwise.cons (fun b hb => ?_) (ih (i - 1))
    have := descFrom_mem (i - 1) b m hb
    omega

/-- When every delete call succeeds, the deletion loop deletes positions
`i, i-1, ..., i-n+1` in that order. -/
theorem downLoop_all_ok (ok : ℤ → Bool) (h : ∀ i, ok i = true) (n : ℕ) (i : ℤ) :
    downLoop n i ok = (descFrom i n, true) := by
  induction n generalizing i with
  | zero => rfl
  | succ m ih =>
    unfold downLoop
    rw [h i, if_pos rfl, ih (i - 1)]
    rfl

/-- When every route delete succeeds and every paired-service delete returns
ok or not-found, the route deletion loop deletes routes at positions
`i, i-1, ...` and issues a paired service delete call for each. -/
theorem routeDownLoop_all_ok (routeDelete svcDelete : ℤ → ApiOutcome)
    (h1 : ∀ i, routeDelete i = .ok)
    (h2 : ∀ i, svcDelete i = .ok ∨ svcDelete i = .notFound) (n : ℕ) (i : ℤ) :
    routeDownLoop n i routeDelete svcDelete =
      (descFrom i n, (descFrom i n).map pairedServiceName, true) := by
  induction n generalizing i with
  | zero => rfl
  | succ m ih =>
    unfold routeDownLoop
    rw [h1 i]
    rcases h2 i with h | h <;> rw [h] <;> rw [ih (i - 1)] <;> rfl

/-- Claim C4: when the number of existing managed objects exceeds the target,
convergence deletes exactly `current - target` objects, the highest-index
objects first: the deletion sequence is `current-1, current-2, ..., target`
(strictly decreasing, every deleted position in `[target, current)`); for
route-like objects each deleted route is paired with a delete call for
`load-service-<i>`, tolerated when the service is not found. -/
theorem scaleDownDeletesHighestFirst :
    (∀ (cur t : ℤ) (createOk deleteOk : ℤ → Bool) (churnSel churnOk : ℕ → Bool),
        (∀ i, deleteOk i = true) →
        (manageConfigMaps cur t createOk deleteOk churnSel churnOk).deletedPositions =
          descendingPositions cur t)
    ∧ (∀ cur t : ℤ, (descendingPositions cur t).length = (cur - t).toNat)
    ∧ (∀ cur t : ℤ, (descendingPositions cur t).Pairwise (fun a b => b < a))
    ∧ (∀ cur t p : ℤ, p ∈ descendingPositions cur t → t ≤ p ∧ p < cur)
    ∧ (∀ (cur t : ℤ) (svcCreate routeCreate routeDelete svcDelete : ℤ → ApiOutcome),
        (∀ i, routeDelete i = .ok) →
        (∀ i, svcDelete i = .ok ∨ svcDelete i = .notFound) →
        (manageRoutes cur t svcCreate routeCreate routeDelete svcDelete).deletedRoutePositions =
            descendingPositions cur t
          ∧ (manageRoutes cur t svcCreate routeCreate routeDelete svcDelete).serviceDeleteCalls =
            (descendingPositions cur t).map pairedServiceName
          ∧ (t ≤ cur →
            (manageRoutes cur t svcCreate routeCreate routeDelete svcDelete).returned =
              GoResult.ok t)) := by
  refine ⟨?_, ?_, ?_, ?_, ?_⟩
  · intro cur t createOk deleteOk churnSel churnOk hdel
    simp only [manageConfigMaps, downLoop_all_ok deleteOk hdel]
    split
    · rename_i hup
      have hzero : (t - cur).toNat ≠ 0 := by
        intro h0
        rw [h0] at hup
        simp [upLoop] at hup
      have hneg : (cur - t).toNat = 0 := by omega
      simp [descendingPositions, hneg, descFrom]
    · simp [descendingPositions]
  · intro cur t
    exact descFrom_length _ _
  · intro cur t
    exact descFrom_pairwise _ _
  · intro cur t p hp
    unfold descendingPositions at hp
    have hb := descFrom_mem _ p _ hp
    have hlen : descFrom (cur - 1) (cur - t).toNat ≠ [] := by
      intro hnil
      rw [hnil] at hp
      exact (List.not_mem_nil p) hp
    have hpos : (cur - t).toNat ≠ 0 := by
      intro h0
      rw [h0] at hlen
      exact hlen rfl
    omega
  · intro cur t svcCreate routeCreate routeDelete svcDelete h1 h2
    simp only [manageRoutes, routeDownLoop_all_ok routeDelete svcDelete h1 h2]
    split
    · rename_i hup
      have hzero : (t - cur).toNat ≠ 0 := by
        intro h0
        rw [h0] at hup
        simp [routeUpLoop] at hup
      have hneg : (cur - t).toNat = 0 := by omega
      refine ⟨by simp [descendingPositions, hneg, descFrom], by simp [descendingPositions, hneg, descFrom], fun hle => by omega⟩
    · exact ⟨rfl, rfl, fun _ => rfl⟩

/-- Witness for C4: five existing objects converging to a target of two. -/
theorem scaleDownDeletesHighestFirst_witness :
    (manageConfigMaps 5 2 (fun _ => true) (fun _ => true)
        (fun _ => false) (fun _ => false)).deletedPositions = descendingPositions 5 2
    ∧ (manageRoutes 5 2 (fun _ => ApiOutcome.ok) (fun _ => ApiOutcome.ok)
        (fun _ => ApiOutcome.ok) (fun _ => ApiOutcome.notFound)).serviceDeleteCalls =
      (descendingPositions 5 2).map pairedServiceName :=
  ⟨scaleDownDeletesHighestFirst.1 5 2 _ _ _ _ (fun _ => rfl),
    (scaleDownDeletesHighestFirst.2.2.2.2 5 2 _ _ _ _ (fun _ => rfl)
      (fun _ => Or.inr rfl)).2.1⟩

/-! ### C5 -/

/-- Claim C5 (RateBudget modelled from the spec): the tick estimates
`5 × targetNamespaces` API calls; a denial leaves the counter unmutated
(beyond the window reset) and makes the tick requeue after exactly one minute
with no namespace, resource, annotation or status effects at all. -/
theorem rateLimitDeniedFrame :
    (∀ (st : RateState) (now r e : ℤ),
        (checkAPIRateLimit st now r e).1 = false →
        (checkAPIRateLimit st now r e).2.counter =
          (if now - st.windowStart ≥ 60 then 0 else st.counter))
    ∧ (∀ (rs rp rd : Option ℤ) (nppn : Option String) (profile : String) (nodeCount : ℕ)
        (st : RateState) (now : ℤ) (convergeEffects : TickEffects),
        (checkAPIRateLimit st now (getEffectiveAPIRate rs rp rd nodeCount)
          (calculateTargetNamespaces nppn profile nodeCount * 5)).1 = false →
        reconcileActive rs rp rd nppn profile nodeCount st now convergeEffects =
          (60, noEffects,
            (checkAPIRateLimit st now (getEffectiveAPIRate rs rp rd nodeCount)
              (calculateTargetNamespaces nppn profile nodeCount * 5)).2)) := by
  constructor
  · intro st now r e h
    by_cases hw : now - st.windowStart ≥ 60
    · simp only [checkAPIRateLimit, if_pos hw] at h ⊢
      by_cases ha : (RateState.mk 0 now).counter + e ≤ r
      · rw [if_pos ha] at h
        simp at h
      · rw [if_neg ha]
    · simp only [checkAPIRateLimit, if_neg hw] at h ⊢
      by_cases ha : st.counter + e ≤ r
      · rw [if_pos ha] at h
        simp at h
      · rw [if_neg ha]
  · intro rs rp rd nppn profile nodeCount st now convergeEffects h
    simp only [reconcileActive, h, Bool.false_eq_true, if_false]

/-- Witness for C5: a static rate of 3 denies an estimate of 5. -/
theorem rateLimitDeniedFrame_witness :
    (checkAPIRateLimit ⟨0, 0⟩ 0 (getEffectiveAPIRate (some 3) none none 1)
        (calculateTargetNamespaces none "production" 1 * 5)).1 = false
    ∧ reconcileActive (some 3) none none none "production" 1 ⟨0, 0⟩ 0 ⟨2, 1, 4, 3, true⟩ =
      (60, noEffects,
        (checkAPIRateLimit ⟨0, 0⟩ 0 (getEffectiveAPIRate (some 3) none none 1)
          (calculateTargetNamespaces none "production" 1 * 5)).2) :=
  ⟨by decide,
    rateLimitDeniedFrame.2 (some 3) none none none "production" 1 ⟨0, 0⟩ 0 ⟨2, 1, 4, 3, true⟩
      (by decide)⟩

/-! ### C6 -/

/-- Conflicts on the first `k` attempts followed by success stop the retry
loop with exactly one persisted update after `k + 1` attempts. -/
theorem runRetry_success (attempt : ℕ → AttemptResult) :
    ∀ (k n i : ℕ), k < n → (∀ j, j < k → attempt (i + j) = .conflict) →
      attempt (i + k) = .success → runRetry n i attempt = (.succeeded, k + 1, 1) := by
  intro k
  induction k with
  | zero =>
    intro n i hk hconf hsucc
    match n, hk with
    | m + 1, _ =>
      unfold runRetry
      rw [show attempt i = .success from hsucc]
  | succ k ih =>
    intro n i hk hconf hsucc
    match n, hk with
    | m + 1, hk =>
      unfold runRetry
      have h0 : attempt i = .conflict := by
        have := hconf 0 (Nat.succ_pos k)
        simpa using this
      rw [h0]
      have hrec := ih m (i + 1) (by omega)
        (fun j hj => by
          have := hconf (j + 1) (by omega)
          rwa [show i + (j + 1) = i + 1 + j by omega] at this)
        (by rwa [show i + (k + 1) = i + 1 + k by omega] at hsucc)
      rw [hrec]

/-- Conflicts on every attempt exhaust the retry budget with nothing
persisted. -/
theorem runRetry_timeout (attempt : ℕ → AttemptResult) :
    ∀ (n i : ℕ), (∀ j, j < n → attempt (i + j) = .conflict) →
      runRetry n i attempt = (.timedOut, n, 0) := by
  intro n
  induction n with
  | zero => intro i _; rfl
  | succ m ih =>
    intro i hconf
    unfold runRetry
    have h0 : attempt i = .conflict := by
      have := hconf 0 (Nat.succ_pos m)
      simpa using this
    rw [h0]
    have hrec := ih (i + 1)
      (fun j hj => by
        have := hconf (j + 1) (by omega)
        rwa [show i + (j + 1) = i + 1 + j by omega] at this)
    rw [hrec]

/-- A non-conflict error aborts the retry loop immediately with nothing
persisted. -/
theorem runRetry_fatal (attempt : ℕ → AttemptResult) :
    ∀ (k n i : ℕ), k < n → (∀ j, j < k → attempt (i + j) = .conflict) →
      attempt (i + k) = .fatal → runRetry n i attempt = (.failed, k + 1, 0) := by
  intro k
  induction k with
  | zero =>
    intro n i hk hconf hfatal
    match n, hk with
    | m + 1, _ =>
      unfold runRetry
      rw [show attempt i = .fatal from hfatal]
  | succ k ih =>
    intro n i hk hconf hfatal
    match n, hk with
    | m + 1, hk =>
      unfold runRetry
      have h0 : attempt i = .conflict := by
        have := hconf 0 (Nat.succ_pos k)
        simpa using this
      rw [h0]
      have hrec := ih m (i + 1) (by omega)
        (fun j hj => by
          have := hconf (j + 1) (by omega)
          rwa [show i + (j + 1) = i + 1 + j by omega] at this)
        (by rwa [show i + (k + 1) = i + 1 + k by omega] at hfatal)
      rw [hrec]

/-- Claim C6: node updates retry up to 5 attempts with exponential backoff
(100ms base, factor 2, 10% jitter); each attempt merges the precomputed
annotation diff onto the freshly fetched node; a conflict retries while any
other error aborts immediately; conflicts on attempts 1–k followed by success
persist exactly one update; conflicts on all 5 attempts fail that node only,
and the per-node loop still processes every node. -/
theorem updateNodeWithRetry_spec :
    nodeUpdateBackoff = ⟨5, 100, 2, 1 / 10⟩
    ∧ (∀ (attempt : ℕ → AttemptResult) (k : ℕ), k < 5 →
        (∀ j, j < k → attempt j = .conflict) → attempt k = .success →
        updateNodeWithRetry attempt = (.succeeded, k + 1, 1))
    ∧ (∀ attempt : ℕ → AttemptResult, (∀ j, j < 5 → attempt j = .conflict) →
        updateNodeWithRetry attempt = (.timedOut, 5, 0))
    ∧ (∀ (attempt : ℕ → AttemptResult) (k : ℕ), k < 5 →
        (∀ j, j < k → attempt j = .conflict) → attempt k = .fatal →
        updateNodeWithRetry attempt = (.failed, k + 1, 0))
    ∧ (∀ (latest diff : String → Option String) (key v : String),
        (diff key = some v → mergeAnnotations latest diff key = some v)
        ∧ (diff key = none → mergeAnnotations latest diff key = latest key))
    ∧ (∀ (nodes : List String) (attempt : String → ℕ → AttemptResult),
        (updateNodesLoop nodes attempt).map Prod.fst = nodes
        ∧ ∀ n ∈ nodes, (n, updateNodeWithRetry (attempt n)) ∈ updateNodesLoop nodes attempt) := by
  refine ⟨rfl, ?_, ?_, ?_, ?_, ?_⟩
  · intro attempt k hk hconf hsucc
    exact runRetry_success attempt k 5 0 hk (fun j hj => by simpa using hconf j hj)
      (by simpa using hsucc)
  · intro attempt hconf
    exact runRetry_timeout attempt 5 0 (fun j hj => by simpa using hconf j hj)
  · intro attempt k hk hconf hfatal
    exact runRetry_fatal attempt k 5 0 hk (fun j hj => by simpa using hconf j hj)
      (by simpa using hfatal)
  · intro latest diff key v
    constructor
    · intro h
      simp [mergeAnnotations, h]
    · intro h
      simp [mergeAnnotations, h]
  · intro nodes attempt
    constructor
    · simp [updateNodesLoop, Function.comp_def]
    · intro n hn
      exact List.mem_map.mpr ⟨n, hn, rfl⟩

/-- Witness for C6: conflicts on attempts 1–4, success on attempt 5, over two
nodes where the second node conflicts throughout. -/
theorem updateNodeWithRetry_spec_witness :
    (4 : ℕ) < 5
    ∧ updateNodeWithRetry (fun j => if j < 4 then .conflict else .success) =
      (.succeeded, 5, 1)
    ∧ updateNodeWithRetry (fun _ => .conflict) = (.timedOut, 5, 0)
    ∧ (updateNodesLoop ["node-a", "node-b"]
        (fun _ _ => AttemptResult.conflict)).map Prod.fst = ["node-a", "node-b"] :=
  ⟨by decide,
    updateNodeWithRetry_spec.2.1 (fun j => if j < 4 then .conflict else .success) 4
      (by decide) (fun j hj => by simp [hj]) (by decide),
    updateNodeWithRetry_spec.2.2.1 (fun _ => .conflict) (fun _ _ => rfl),
    (updateNodeWithRetry_spec.2.2.2.2.2 ["node-a", "node-b"]
      (fun _ _ => AttemptResult.conflict)).1⟩

/-! ### C7 -/

/-- Integer division by a positive natural is the rational floor. -/
theorem intDiv_eq_floor (a : ℤ) (d : ℕ) : a / (d : ℤ) = ⌊(a : ℚ) / (d : ℚ)⌋ :=
  (Rat.floor_intCast_div_natCast a d).symm

/-- Claim C7: with a positive configured rate, `manageEvents` attempts exactly
`floor(eventsPerHour × hoursSinceLastReconcile)` creates capped at 10, each
indexed create exactly once (the attempt list has no duplicates); it returns
the number of successful creates, and failed creates are counted but never
retried (successes plus failures make up all attempts).  An unset
last-reconcile time behaves as a one-minute elapsed interval. -/
theorem manageEvents_spec :
    (∀ (eph : ℤ) (elapsedNanos : ℕ) (createOk : ℕ → Bool), 0 < eph →
      (manageEvents eph false elapsedNanos createOk).1.length =
          (⌊(eph : ℚ) * ((elapsedNanos : ℚ) / (nanosPerHour : ℚ))⌋).toNat.min 10
        ∧ (manageEvents eph false elapsedNanos createOk).1.Nodup
        ∧ (manageEvents eph false elapsedNanos createOk).2 =
            ((manageEvents eph false elapsedNanos createOk).1.filter createOk).length
        ∧ ((manageEvents eph false elapsedNanos createOk).1.filter createOk).length +
            ((manageEvents eph false elapsedNanos createOk).1.filter
              (fun i => !(createOk i))).length =
            (manageEvents eph false elapsedNanos createOk).1.length)
    ∧ (∀ (eph : ℤ) (elapsedNanos : ℕ) (createOk : ℕ → Bool),
        manageEvents eph true elapsedNanos createOk =
          manageEvents eph false firstRunElapsedNanos createOk) := by
  constructor
  · intro eph elapsedNanos createOk hpos
    have hfloor : ⌊(eph : ℚ) * ((elapsedNanos : ℚ) / (nanosPerHour : ℚ))⌋ =
        eph * (elapsedNanos : ℤ) / (nanosPerHour : ℤ) := by
      rw [intDiv_eq_floor]
      congr 1
      push_cast
      ring
    refine ⟨?_, ?_, rfl, ?_⟩
    · simp only [manageEvents, if_neg (not_le.mpr hpos), Bool.false_eq_true, if_false,
        List.length_range, hfloor]
      have ht : 0 ≤ eph * (elapsedNanos : ℤ) / (nanosPerHour : ℤ) :=
        Int.ediv_nonneg (by positivity) (by positivity)
      have hmm : ∀ a b : ℕ, a.min b = min a b := fun _ _ => rfl
      by_cases hcap : eph * (elapsedNanos : ℤ) / (nanosPerHour : ℤ) > 10
      · rw [if_pos hcap, hmm, min_eq_right (by omega : (10 : ℕ) ≤ _)]
        rfl
      · rw [if_neg hcap, hmm, min_eq_left (by omega : _ ≤ (10 : ℕ))]
    · simp only [manageEvents]
      exact List.nodup_range _
    · exact (List.length_eq_length_filter_add createOk).symm
  · intro eph elapsedNanos createOk
    rfl

/-- Witness for C7: 50 events per hour over half an hour caps at 10 attempts;
creates at even indices succeed, giving 5 successes. -/
theorem manageEvents_spec_witness :
    (0 : ℤ) < 50
    ∧ (manageEvents 50 false 1800000000000 (fun i => i % 2 == 0)).1.length =
      (⌊(50 : ℚ) * ((1800000000000 : ℚ) / ((nanosPerHour : ℕ) : ℚ))⌋).toNat.min 10
    ∧ (manageEvents 50 false 1800000000000 (fun i => i % 2 == 0)).2 =
      ((manageEvents 50 false 1800000000000 (fun i => i % 2 == 0)).1.filter
        (fun i => i % 2 == 0)).length :=
  ⟨by decide,
    (manageEvents_spec.1 50 1800000000000 (fun i => i % 2 == 0) (by decide)).1,
    (manageEvents_spec.1 50 1800000000000 (fun i => i % 2 == 0) (by decide)).2.2.1⟩

/-! ### C9 -/

/-- `FormatFloat(0.0, 'f', 2, 64)` renders as the string `0.00`. -/
theorem formatFixed2_zero : formatFixed2 0 = "0.00" := by
  unfold formatFixed2
  rw [zero_mul, round_zero]
  rfl

/-- The error-rate string the source always writes keeps Degraded normal. -/
theorem degradedCondition_zero : degradedCondition "0.00" = degradedNormal := by
  decide

/-- Claim C9: `calculateMetrics` writes the constant error rate `0.00` on
every tick, and `updateConditions` only degrades on a parsed error rate above
10.0, so after every `updateStatus` the Degraded condition has status False
with reason OperatingNormally. -/
theorem degradedNeverTrue :
    (∀ (totalResources : ℤ) (elapsedMinutes : ℚ) (elapsedMillis : ℤ),
        (calculateMetrics totalResources elapsedMinutes elapsedMillis).errorRate = "0.00")
    ∧ (∀ (enabled : Bool) (kwok nsCount : ℕ) (rc : String → ℤ) (em : ℚ) (ems : ℤ),
        ∀ c ∈ (updateStatus enabled kwok nsCount rc em ems).conditions,
          c.condType = "Degraded" → c.statusTrue = false ∧ c.reason = "OperatingNormally") := by
  constructor
  · intro totalResources elapsedMinutes elapsedMillis
    exact formatFixed2_zero
  · intro enabled kwok nsCount rc em ems c hc htype
    simp only [updateStatus, updateConditions, calculateMetrics, formatFixed2_zero,
      degradedCondition_zero, List.mem_cons, List.not_mem_nil, or_false] at hc
    rcases hc with rfl | rfl | rfl
    · split at htype
      · simp at htype
      · split at htype
        · simp at htype
        · simp at htype
    · split at htype
      · simp at htype
      · simp at htype
    · exact ⟨rfl, rfl⟩

/-- Witness for C9: a concrete status update publishes Degraded in its normal
state. -/
theorem degradedNeverTrue_witness :
    degradedNormal ∈ (updateStatus true 3 2 statusExampleCounts 1 60000).conditions
    ∧ degradedNormal.condType = "Degraded"
    ∧ degradedNormal.statusTrue = false ∧ degradedNormal.reason = "OperatingNormally" := by
  have hmem : degradedNormal ∈ (updateStatus true 3 2 statusExampleCounts 1 60000).conditions := by
    simp only [updateStatus, updateConditions, calculateMetrics, formatFixed2_zero,
      degradedCondition_zero]
    exact List.mem_cons_of_mem _ (List.mem_cons_of_mem _ (List.mem_cons_self _ _))
  exact ⟨hmem, rfl,
    degradedNeverTrue.2 true 3 2 statusExampleCounts 1 60000 degradedNormal hmem rfl⟩

/-! ### C10 -/

/-- Claim C10: every target-count manage function that returns without error
returns the configured target count (never the observed or achieved count),
and `updateStatus` copies exactly the aggregated per-kind counts it is given
into the published totals — so a successful tick publishes the configured
targets. -/
theorem manageReturnsConfiguredTarget :
    (∀ (cur t : ℤ) (c d : ℤ → Bool) (cs co : ℕ → Bool) (v : ℤ),
        (manageConfigMaps cur t c d cs co).returned = GoResult.ok v → v = t)
    ∧ (∀ (cur t : ℤ) (c d : ℤ → Bool) (cs co : ℕ → Bool) (v : ℤ),
        (manageSecrets cur t c d cs co).returned = GoResult.ok v → v = t)
    ∧ (∀ (cur t : ℤ) (sc rc rd sd : ℤ → ApiOutcome) (v : ℤ),
        (manageRoutes cur t sc rc rd sd).returned = GoResult.ok v → v = t)
    ∧ (∀ (cur t : ℤ) (c d : ℤ → Bool) (v : ℤ),
        (manageImageStreams cur t c d).returned = GoResult.ok v → v = t)
    ∧ (∀ (cur t : ℤ) (c d : ℤ → Bool) (v : ℤ),
        (manageBuildConfigs cur t c d).returned = GoResult.ok v → v = t)
    ∧ (∀ (enabled : Bool) (kwok nsCount : ℕ) (rc : String → ℤ) (em : ℚ) (ems : ℤ),
        (updateStatus enabled kwok nsCount rc em ems).totalResources =
          ⟨rc "configMaps", rc "secrets", rc "routes", rc "imageStreams",
            rc "buildConfigs", rc "events"⟩) := by
  refine ⟨?_, ?_, ?_, ?_, ?_, ?_⟩
  · intro cur t c d cs co v h
    simp only [manageConfigMaps] at h
    split at h
    · simp at h
    · split at h
      · simp at h
      · simp only [GoResult.ok.injEq] at h
        exact h.symm
  · intro cur t c d cs co v h
    simp only [manageSecrets] at h
    split at h
    · simp at h
    · split at h
      · simp at h
      · simp only [GoResult.ok.injEq] at h
        exact h.symm
  · intro cur t sc rc rd sd v h
    simp only [manageRoutes] at h
    split at h
    · simp at h
    · split at h
      · simp at h
      · simp only [GoResult.ok.injEq] at h
        exact h.symm
  · intro cur t c d v h
    simp only [manageImageStreams] at h
    split at h
    · simp at h
    · split at h
      · simp at h
      · simp only [GoResult.ok.injEq] at h
        exact h.symm
  · intro cur t c d v h
    simp only [manageBuildConfigs] at h
    split at h
    · simp at h
    · split at h
      · simp at h
      · simp only [GoResult.ok.injEq] at h
        exact h.symm
  · intro enabled kwok nsCount rc em ems
    rfl

/-- Witness for C10: converging 3 objects up to a target of 5 returns 5, and
a concrete counts map is copied verbatim into the published totals. -/
theorem manageReturnsConfiguredTarget_witness :
    (manageConfigMaps 3 5 (fun _ => true) (fun _ => true)
        (fun _ => false) (fun _ => false)).returned = GoResult.ok 5
    ∧ (5 : ℤ) = 5
    ∧ (updateStatus true 2 1 totalsExampleCounts 1 60000).totalResources =
      ⟨totalsExampleCounts "configMaps", totalsExampleCounts "secrets",
        totalsExampleCounts "routes", totalsExampleCounts "imageStreams",
        totalsExampleCounts "buildConfigs", totalsExampleCounts "events"⟩ :=
  ⟨by decide,
    manageReturnsConfiguredTarget.1 3 5 (fun _ => true) (fun _ => true)
      (fun _ => false) (fun _ => false) 5 (by decide),
    manageReturnsConfiguredTarget.2.2.2.2.2 true 2 1 totalsExampleCounts 1 60000⟩
